import Mathlib

/-!
Verification of the triple-buffer synchronizer and streaming analysis
algorithms of the PhaseCalculator / CoherenceViewer plugins.

The development shallowly embeds the relevant C++ sources:

* `AtomicSynchronizer` (AtomicSynchronizer.h): the five index cells and the
  writer/reader operations, treated as atomic steps of a state machine (one
  step per method call, matching the single-writer/single-reader protocol).
* `ARModeler` (AtomicSynchronizer.h, second unit): `setParams` and the Burg
  recursion `fitModel`, with `double` modelled as `ℚ`.
* `CumulativeTFR` accumulators (CumulativeTFR.h): `ComplexAccum`,
  `ComplexWeightedAccum`, `RealWeightedAccum`, `std::complex<double>`
  modelled as `ℚ × ℚ`.
* `PhaseCalculator` (PhaseCalculator.cpp): `unwrapBuffer`, `smoothBuffer`,
  `htFilterSamp`, `arPredict`, `circDist` and the per-channel body of
  `process`, with library math (`std::arg`, `std::abs`, `std::sin`, the
  `Dsp::doublePi` constant) passed in as parameters, since every finite
  `double` value is a rational.
-/

/-! ## AtomicSynchronizer (AtomicSynchronizer.h lines 51-357)

State of one synchronizer: the three shared atomic index cells, the
writer-private and reader-private index cells, and the two checkout
counters.  Each public/private method of the class becomes one atomic
step on this state. -/

structure AtomicSynchronizer where
  readyToReadIndex : ℤ
  readyToWriteIndex : ℤ
  readyToWriteIndex2 : ℤ
  writerIndex : ℤ
  readerIndex : ℤ
  nWriters : ℕ
  nReaders : ℕ
deriving DecidableEq

/-- State set up by `reset()` (lines 224-239), which is also the state after
construction: no valid object yet, writer holds slot 2. -/
def AtomicSynchronizer.resetState : AtomicSynchronizer :=
  { readyToReadIndex := -1
    readyToWriteIndex := 0
    readyToWriteIndex2 := 1
    writerIndex := 2
    readerIndex := -1
    nWriters := 0
    nReaders := 0 }

/-- `updateWriterIndex` (lines 282-300): if the writer holds no slot, pull one
from `readyToWriteIndex`, falling back to `readyToWriteIndex2` (each pull is an
`exchange(-1)`). -/
def AtomicSynchronizer.updateWriterIndex (s : AtomicSynchronizer) : AtomicSynchronizer :=
  if s.writerIndex = -1 then
    if s.readyToWriteIndex = -1 then
      { s with writerIndex := s.readyToWriteIndex2
               readyToWriteIndex := -1
               readyToWriteIndex2 := -1 }
    else
      { s with writerIndex := s.readyToWriteIndex, readyToWriteIndex := -1 }
  else s

/-- `pushWrite` (lines 303-317): exchange the held slot into
`readyToReadIndex` (skipped in release builds if no slot is held, which the
source asserts cannot happen), then re-acquire a write slot. -/
def AtomicSynchronizer.pushWrite (s : AtomicSynchronizer) : AtomicSynchronizer :=
  let s1 :=
    if s.writerIndex = -1 then s
    else { s with readyToReadIndex := s.writerIndex
                  writerIndex := s.readyToReadIndex }
  s1.updateWriterIndex

/-- `updateReaderIndex` (lines 320-345): if an update is ready, first park the
currently held read slot in `readyToWriteIndex` (or, if that compare-exchange
fails, in `readyToWriteIndex2`), then claim the ready slot. -/
def AtomicSynchronizer.updateReaderIndex (s : AtomicSynchronizer) : AtomicSynchronizer :=
  if s.readyToReadIndex ≠ -1 then
    if s.readerIndex ≠ -1 then
      if s.readyToWriteIndex = -1 then
        { s with readyToWriteIndex := s.readerIndex
                 readerIndex := s.readyToReadIndex
                 readyToReadIndex := -1 }
      else
        { s with readyToWriteIndex2 := s.readerIndex
                 readerIndex := s.readyToReadIndex
                 readyToReadIndex := -1 }
    else
      { s with readerIndex := s.readyToReadIndex, readyToReadIndex := -1 }
  else s

/-- The seven single-writer / single-reader operations of the protocol. -/
inductive SyncOp
  | checkoutWriter
  | updateWriterIndex
  | pushWrite
  | returnWriter
  | checkoutReader
  | updateReaderIndex
  | returnReader
deriving DecidableEq

/-- Effect of one operation on the synchronizer state.  `checkoutWriter`
(lines 245-255) only succeeds (sets the counter) when no writer is registered;
`returnWriter` (lines 257-260) clears the counter; similarly for the reader. -/
def SyncOp.apply : SyncOp → AtomicSynchronizer → AtomicSynchronizer
  | .checkoutWriter, s => if s.nWriters = 0 then { s with nWriters := 1 } else s
  | .updateWriterIndex, s => s.updateWriterIndex
  | .pushWrite, s => s.pushWrite
  | .returnWriter, s => { s with nWriters := 0 }
  | .checkoutReader, s => if s.nReaders = 0 then { s with nReaders := 1 } else s
  | .updateReaderIndex, s => s.updateReaderIndex
  | .returnReader, s => { s with nReaders := 0 }

/-- Run an interleaved sequence of operations. -/
def runOps (ops : List SyncOp) (s : AtomicSynchronizer) : AtomicSynchronizer :=
  ops.foldl (fun t op => op.apply t) s

/-- The five index cells, as a multiset. -/
def AtomicSynchronizer.cells (s : AtomicSynchronizer) : Multiset ℤ :=
  s.readyToReadIndex ::ₘ s.readyToWriteIndex ::ₘ s.readyToWriteIndex2 ::ₘ
    s.writerIndex ::ₘ {s.readerIndex}

/-- Protocol invariant: the five cells are a permutation of `{0, 1, 2, -1, -1}`
and the writer always holds a slot between atomic steps. -/
def SyncInv (s : AtomicSynchronizer) : Prop :=
  s.cells = ((0 : ℤ) ::ₘ 1 ::ₘ 2 ::ₘ -1 ::ₘ {-1}) ∧ s.writerIndex ≠ -1

/-- States reachable from reset by some interleaving of the operations. -/
def SyncReachable (s : AtomicSynchronizer) : Prop :=
  ∃ ops : List SyncOp, s = runOps ops AtomicSynchronizer.resetState

/-- `ScopedWriteIndex` constructor (lines 57-70): check out the writer role
and, when that succeeds, acquire a write slot. -/
def scopedWriteAcquire (s : AtomicSynchronizer) : Bool × AtomicSynchronizer :=
  if s.nWriters = 0 then (true, ({ s with nWriters := 1 }).updateWriterIndex)
  else (false, s)

/-- `ScopedWriteIndex` destructor (lines 76-83): when valid, push the held
slot to the reader and then release the writer role. -/
def scopedWriteRelease (valid : Bool) (s : AtomicSynchronizer) : AtomicSynchronizer :=
  if valid then { s.pushWrite with nWriters := 0 } else s

/-! ## ARModeler (AR_MODELER_H, second unit of AtomicSynchronizer.h)

`double` is modelled as `ℚ`.  The member array `h` of the source is a scratch
buffer: within each fit, iteration `n` first writes `h[0..n-2]` and only then
reads back exactly those entries, so it is modelled by the intermediate list
`hScratch` below and carries no state between fits. -/

structure ARModeler where
  arOrder : ℤ
  inputLength : ℤ
  stridedLength : ℤ
  stride : ℤ
  per : List ℚ
  pef : List ℚ
deriving DecidableEq

/-- `calcStridedLength` (lines 614-618): `(inputLength + (stride - 1)) / stride`
with C++ `int` division (truncation toward zero). -/
def ARModeler.calcStridedLength (inputLength stride : ℤ) : ℤ :=
  (inputLength + (stride - 1)).tdiv stride

/-- `resetPredictionError` (lines 606-612): `per` and `pef` become
`stridedLength` zeros. -/
def ARModeler.resetPredictionError (m : ARModeler) : ARModeler :=
  { m with per := List.replicate m.stridedLength.toNat 0,
           pef := List.replicate m.stridedLength.toNat 0 }

/-- `setParams` (lines 538-552).  Note the source computes `newStridedLength`
from the member `inputLength` (not the `length` argument) and validates
`stridedLength` (the previously configured value, not `newStridedLength`)
against `order + 1`; this is embedded as written.  `reallocateStorage` reduces
to `resetPredictionError` here (the `h` scratch buffer is not state, see
above). -/
def ARModeler.setParams (m : ARModeler) (order length strideIn : ℤ) :
    Bool × ARModeler :=
  let newStridedLength := ARModeler.calcStridedLength m.inputLength strideIn
  if order < 1 ∨ m.stridedLength < order + 1 then (false, m)
  else (true, ARModeler.resetPredictionError
    { m with arOrder := order, inputLength := length, stride := strideIn,
             stridedLength := newStridedLength })

/-- State threaded through one fit: the coefficient vector under construction
and the forward/backward prediction-error sequences. -/
structure BurgState where
  coef : List ℚ
  per : List ℚ
  pef : List ℚ
deriving DecidableEq

/-- One iteration (model order `n`, 1-based) of the Burg recursion in
`fitModel` (lines 564-595).  Out-of-range reads return 0, matching the
bounds-checked JUCE `Array::operator[]`. -/
def burgIter (x : List ℚ) (stride stridedLength : ℕ) (st : BurgState) (n : ℕ) :
    BurgState :=
  let jj0 := stridedLength - n
  let snsd := (List.range jj0).foldl
    (fun (p : ℚ × ℚ) j =>
      let t1 := x.getD (stride * (j + n)) 0 + st.pef.getD j 0
      let t2 := x.getD (stride * j) 0 + st.per.getD j 0
      (p.1 - 2 * t1 * t2, p.2 + t1 * t1 + t2 * t2))
    ((0 : ℚ), (0 : ℚ))
  let t1 := snsd.1 / snsd.2
  let coef1 := st.coef.set (n - 1) t1
  let hScratch := (List.range (n - 1)).map
    (fun i => coef1.getD i 0 + t1 * coef1.getD (n - i - 2) 0)
  let coef2 :=
    if n = 1 then coef1
    else (List.range (n - 1)).foldl (fun c i => c.set i (hScratch.getD i 0)) coef1
  let jj := if n = 1 then jj0 else jj0 - 1
  let perPef := (List.range jj).foldl
    (fun (q : List ℚ × List ℚ) j =>
      let newPer := q.1.set j
        (q.1.getD j 0 + t1 * q.2.getD j 0 + t1 * x.getD (stride * (j + n)) 0)
      let newPef := q.2.set j
        (q.2.getD (j + 1) 0 + t1 * newPer.getD (j + 1) 0 + t1 * x.getD (stride * (j + 1)) 0)
      (newPer, newPef))
    (st.per, st.pef)
  { coef := coef2, per := perPef.1, pef := perPef.2 }

/-- `fitModel` (lines 554-596): reset `per`/`pef`, then run the Burg recursion
for model orders `1..arOrder`.  The caller's `coef` array is completely
overwritten (each entry before it is ever read), so it is returned as an
output, initialised to zeros. -/
def ARModeler.fitModel (m : ARModeler) (inputseries : List ℚ) :
    List ℚ × ARModeler :=
  let m0 := m.resetPredictionError
  let fin := (List.range m.arOrder.toNat).foldl
    (fun st k => burgIter inputseries m.stride.toNat m.stridedLength.toNat st (k + 1))
    { coef := List.replicate m.arOrder.toNat 0, per := m0.per, pef := m0.pef }
  (fin.coef, { m with per := fin.per, pef := fin.pef })

/-! ## CumulativeTFR accumulators (CumulativeTFR.h lines 43-118)

`std::complex<double>` is modelled as `ℚ × ℚ`; complex/real division is
componentwise.  In the weighted accumulators `count` is a `size_t` assigned
from a `double` expression, i.e. truncated toward zero (conversion of a
negative value is undefined behaviour in C++; it is not exercised here). -/

def ratTruncNat (q : ℚ) : ℕ := (q.num.tdiv (q.den : ℤ)).toNat

structure ComplexAccum where
  sum : ℚ × ℚ
  count : ℕ
deriving DecidableEq

def ComplexAccum.init : ComplexAccum := ⟨(0, 0), 0⟩

def ComplexAccum.addValue (a : ComplexAccum) (x : ℚ × ℚ) : ComplexAccum :=
  ⟨(a.sum.1 + x.1, a.sum.2 + x.2), a.count + 1⟩

def ComplexAccum.getAverage (a : ComplexAccum) : ℚ × ℚ :=
  if 0 < a.count then (a.sum.1 / a.count, a.sum.2 / a.count) else (0, 0)

structure ComplexWeightedAccum where
  sum : ℚ × ℚ
  count : ℕ
  alpha : ℚ
deriving DecidableEq

def ComplexWeightedAccum.init (alpha : ℚ) : ComplexWeightedAccum := ⟨(0, 0), 0, alpha⟩

def ComplexWeightedAccum.addValue (a : ComplexWeightedAccum) (x : ℚ × ℚ) :
    ComplexWeightedAccum :=
  ⟨(x.1 + (1 - a.alpha) * a.sum.1, x.2 + (1 - a.alpha) * a.sum.2),
   ratTruncNat (1 + (1 - a.alpha) * (a.count : ℚ)), a.alpha⟩

def ComplexWeightedAccum.getAverage (a : ComplexWeightedAccum) : ℚ × ℚ :=
  if 0 < a.count then (a.sum.1 / a.count, a.sum.2 / a.count) else (0, 0)

structure RealWeightedAccum where
  sum : ℚ
  count : ℕ
  alpha : ℚ
deriving DecidableEq

def RealWeightedAccum.init (alpha : ℚ) : RealWeightedAccum := ⟨0, 0, alpha⟩

def RealWeightedAccum.addValue (a : RealWeightedAccum) (x : ℚ) : RealWeightedAccum :=
  ⟨x + (1 - a.alpha) * a.sum, ratTruncNat (1 + (1 - a.alpha) * (a.count : ℚ)), a.alpha⟩

def RealWeightedAccum.getAverage (a : RealWeightedAccum) : ℚ :=
  if 0 < a.count then a.sum / a.count else 0

/-! ## PhaseCalculator (PhaseCalculator.cpp)

`double`/`float` values are modelled as `ℚ` (every finite IEEE value is
rational).  Library math that is external to the repository — `std::arg`,
`std::abs` on complex numbers, `std::sin`, and the constant `Dsp::doublePi` —
is passed in through `ExtMath`.  The constants `HT_DELAY`, `GLITCH_LIMIT` and
`htScaleFactor` are declared in the header (not among the sources) and are
kept as parameters; nothing below depends on their values. -/

/-- Read a buffer at a possibly negative pointer offset (in range in the
source); out of range yields 0. -/
def getQ (l : List ℚ) (i : ℤ) : ℚ := if 0 ≤ i then l.getD i.toNat 0 else 0

/-- C++ truncation toward zero of a rational. -/
def ratTrunc (q : ℚ) : ℤ := q.num.tdiv (q.den : ℤ)

/-- `std::fmod` on rationals: remainder with the sign of the dividend. -/
def ratFmod (a b : ℚ) : ℚ := a - b * ratTrunc (a / b)

/-- `circDist` (lines 1747-1753): circular distance of `x` from `ref`, mapped
into `(cutoff - 2π, cutoff]`.  `piq` is the value of `Dsp::doublePi`. -/
def circDist (piq x ref cutoff : ℚ) : ℚ :=
  let xMod := ratFmod (x - ref) (2 * piq)
  let xPos := if xMod < 0 then xMod + 2 * piq else xMod
  if cutoff < xPos then xPos - 2 * piq else xPos

/-- `htFilterSamp` (lines 2324-2338): zero the newest delay-line entry, add
`coef * input` to every entry, emit the oldest entry, and shift.  After the
`memmove` the last entry keeps its previous value (it is zeroed on the next
call).  Returns (output sample, new state). -/
def htFilterSamp (coefs : List ℚ) (input : ℚ) (state : List ℚ) : ℚ × List ℚ :=
  let st1 := state.set (state.length - 1) 0
  let st2 := List.zipWith (fun s c => s + c * input) st1 coefs
  (st2.getD 0 0, st2.drop 1 ++ [st2.getD (st2.length - 1) 0])

/-- Delay-line state after streaming a list of samples through
`htFilterSamp`. -/
def htFoldState (coefs : List ℚ) (st : List ℚ) (xs : List ℚ) : List ℚ :=
  xs.foldl (fun s x => (htFilterSamp coefs x s).2) st

/-- The forward search of `unwrapBuffer` (lines 2002-2010): first index in
`(startInd, maxInd]` whose step exceeds 180° in the direction opposite to
`diff`. -/
def findOppJump (wp : List ℚ) (diff : ℚ) (startInd maxInd : ℕ) : Option ℕ :=
  (List.range' (startInd + 1) (maxInd - startInd) 1).find?
    (fun c => decide (180 < |wp.getD c 0 - wp.getD (c - 1) 0|) &&
      (decide (0 < diff) != decide (0 < wp.getD c 0 - wp.getD (c - 1) 0)))

/-- Shift the entries of `wp` with index in `[lo, hi)` down by `delta`
(lines 2012-2016). -/
def subUnwrap (wp : List ℚ) (lo : ℕ) (hi : ℤ) (delta : ℚ) : List ℚ :=
  wp.mapIdx (fun i x => if (lo : ℤ) ≤ i ∧ (i : ℤ) < hi then x - delta else x)

/-- Main loop of `unwrapBuffer` (lines 1982-2024).  `startInd` advances by at
least 1 per iteration and the loop runs while `startInd < n - 1`, so `n` is
enough fuel; the fuel never runs out on the source's own control flow. -/
def unwrapLoop (lastPh : ℚ) (glitchLimit n : ℕ) : ℕ → List ℚ → ℕ → List ℚ
  | 0, wp, _ => wp
  | fuel + 1, wp, startInd =>
    if startInd + 1 < n then
      if 180 < |wp.getD startInd 0 - (if startInd = 0 then lastPh else wp.getD (startInd - 1) 0)| then
        let diff := wp.getD startInd 0 - (if startInd = 0 then lastPh else wp.getD (startInd - 1) 0)
        let maxInd := if diff < 0 then min (startInd + glitchLimit) (n - 1) else n - 1
        let endInd : ℤ :=
          match findOppJump wp diff startInd maxInd with
          | some c => (c : ℤ)
          | none => if diff < 0 then -1 else (n : ℤ)
        let wp1 := subUnwrap wp startInd endInd (360 * (diff / |diff|))
        if -1 < endInd then unwrapLoop lastPh glitchLimit n fuel wp1 (endInd.toNat + 1)
        else unwrapLoop lastPh glitchLimit n fuel wp1 (startInd + 1)
      else unwrapLoop lastPh glitchLimit n fuel wp (startInd + 1)
    else wp

/-- `unwrapBuffer` (lines 1980-2025); `lastPh` is the carried
`lastPhase[activeChan]`. -/
def unwrapBuffer (glitchLimit : ℕ) (wp : List ℚ) (lastPh : ℚ) : List ℚ :=
  unwrapLoop lastPh glitchLimit wp.length wp.length wp 0

/-- The search loop of `smoothBuffer` (lines 2035-2049): look for the first
index whose value exceeds `lastPh`, fixing up a wrap on the way (the corner
case mutates the buffer). -/
def smoothSearch (lastPh : ℚ) (wp : List ℚ) : List ℕ → Option (ℕ × List ℚ)
  | [] => none
  | i :: rest =>
    if lastPh < wp.getD i 0 then some (i, wp)
    else if wp.getD i 0 - wp.getD (i - 1) 0 < -180 ∧ lastPh < wp.getD i 0 + 360 then
      some (i, wp.set i (wp.getD i 0 + 360))
    else smoothSearch lastPh wp rest

/-- `smoothBuffer` (lines 2027-2061). -/
def smoothBuffer (glitchLimit : ℕ) (wp : List ℚ) (lastPh : ℚ) : List ℚ :=
  let n := wp.length
  let actualGL := min glitchLimit (n - 1)
  let diff := wp.getD 0 0 - lastPh
  if diff < 0 ∧ -180 < diff then
    match smoothSearch lastPh wp (List.range' 1 actualGL 1) with
    | none => wp
    | some (endIndex, wp1) =>
      let slope := (wp1.getD endIndex 0 - lastPh) / (endIndex + 1)
      (List.range endIndex).foldl (fun w i => w.set i (lastPh + (i + 1) * slope)) wp1
  else wp

/-- `arPredict` (lines 2255-2269): extrapolate `delay + 1` future samples from
the AR parameters and the last `order` (strided) history samples.
`hist` is the channel history buffer; the source's `lastSample` pointer is
`hist.end - off`. -/
def arPredict (hist : List ℚ) (off : ℕ) (params : List ℚ) (stride order delay : ℕ) :
    List ℚ :=
  (List.range (delay + 1)).foldl
    (fun pred (s : ℕ) =>
      pred ++ [-((List.range order).foldl
        (fun acc k =>
          acc + params.getD k 0 *
            (if (s : ℤ) - 1 - k < 0 then
               getQ hist ((hist.length : ℤ) - off + ((s : ℤ) - k) * stride)
             else pred.getD (s - 1 - k) 0))
        0)])
    []

/-- Indices within the current buffer passed through the Hilbert transformer
(lines 1348-1352): `dsFactor - offset`, stepping by `dsFactor`, below
`nSamples`. -/
def htIndsOf (dsFactor off n : ℕ) : List ℕ :=
  if dsFactor - off < n then
    List.range' (dsFactor - off) ((n - 1 - (dsFactor - off)) / dsFactor + 1) dsFactor
  else []

/-- First transformer loop (lines 1360-1370): stream the buffer samples at
`htInds` through the channel's real filter state, recording analytic samples
once the transformer delay has been covered.  Returns (final filter state,
`htOutput` prefix). -/
def htLoop1 (coefs : List ℚ) (scale : ℚ) (delay : ℕ) (inSamps : List ℚ)
    (htInds : List ℕ) (st0 : List ℚ) : List ℚ × List (ℚ × ℚ) :=
  (List.range htInds.length).foldl
    (fun (a : List ℚ × List (ℚ × ℚ)) kIn =>
      ((htFilterSamp coefs (inSamps.getD (htInds.getD kIn 0) 0) a.1).2,
       if delay ≤ kIn then
         a.2 ++ [(inSamps.getD (htInds.getD (kIn - delay) 0) 0,
                  scale * (htFilterSamp coefs (inSamps.getD (htInds.getD kIn 0) 0) a.1).1)]
       else a.2))
    (st0, [])

/-- Second transformer loop (lines 1372-1385): stream the predicted samples
through a copy (`htTempState`) of the filter state; the copy's final value is
discarded. -/
def htLoop2 (coefs : List ℚ) (scale : ℚ) (delay : ℕ) (inSamps : List ℚ)
    (htInds : List ℕ) (pred : List ℚ) (stTemp : List ℚ) (out0 : List (ℚ × ℚ)) :
    List ℚ × List (ℚ × ℚ) :=
  (List.range (delay + 1)).foldl
    (fun (a : List ℚ × List (ℚ × ℚ)) (i : ℕ) =>
      ((htFilterSamp coefs (pred.getD i 0) a.1).2,
       if 0 ≤ (htInds.length : ℤ) - delay + i then
         a.2 ++ [((if i = delay then pred.getD 0 0
                   else inSamps.getD (htInds.getD ((htInds.length : ℤ) - delay + i).toNat 0) 0),
                  scale * (htFilterSamp coefs (pred.getD i 0) a.1).1)]
       else a.2))
    (stTemp, out0)

/-- Library math external to the repository: the `Dsp::doublePi` constant and
`std::arg`, `std::abs` (on complex values given as re/im), `std::sin`. -/
structure ExtMath where
  piq : ℚ
  argF : ℚ → ℚ → ℚ
  absF : ℚ → ℚ → ℚ
  sinF : ℚ → ℚ

/-- `outputMode` values. -/
inductive OutputMode
  | MAG
  | PH_AND_MAG
  | PH
  | IM
deriving DecidableEq

/-- Per-channel configuration read by `process`: `historyLength`,
`sampleRateMultiple[chan]` (`dsFactor`), `arOrder`, the transformer constants
and `outputMode`. -/
structure ChanParams where
  historyLength : ℕ
  dsFactor : ℕ
  arOrder : ℕ
  htDelay : ℕ
  htCoefs : List ℚ
  htScaleFactor : ℚ
  glitchLimit : ℕ
  outputMode : OutputMode

/-- Per-channel persistent state touched by `process`. -/
structure ChanState where
  freeSpace : ℕ
  history : List ℚ
  htState : List ℚ
  lastComputedSample : ℚ × ℚ
  lastPhase : ℚ
  dsOffset : ℕ

def phaseOf (E : ExtMath) (z : ℚ × ℚ) : ℚ := E.argF z.1 z.2

def magOf (E : ExtMath) (z : ℚ × ℚ) : ℚ := E.absF z.1 z.2

/-- State of the interpolating output loop (lines 1398-1470). -/
structure InterpSt where
  out1 : List ℚ
  out2 : List ℚ
  kOut : ℕ
  prevCS : ℚ × ℚ
  nextCS : ℚ × ℚ
  prevPhase : ℚ
  nextPhase : ℚ
  phaseSpan : ℚ
  prevMag : ℚ
  nextMag : ℚ
  magSpan : ℚ
  subSample : ℕ

/-- One iteration of the interpolating output loop (lines 1420-1470).  The
phase/magnitude frame fields are computed unconditionally; the source computes
them only under `needPhase`/`needMag`, but reads them only under the same
conditions, so the emitted outputs agree. -/
def interpStep (E : ExtMath) (mode : OutputMode) (dsFactor : ℕ)
    (htOutput : List (ℚ × ℚ)) (st : InterpSt) (_i : ℕ) : InterpSt :=
  let st :=
    if st.subSample = 0 then
      let nextCS := htOutput.getD (st.kOut + 1) (0, 0)
      { st with
        kOut := st.kOut + 1
        prevCS := st.nextCS
        nextCS := nextCS
        prevPhase := st.nextPhase
        nextPhase := phaseOf E nextCS
        phaseSpan := circDist E.piq (phaseOf E nextCS) st.nextPhase E.piq
        prevMag := st.nextMag
        nextMag := magOf E nextCS
        magSpan := magOf E nextCS - st.nextMag }
    else st
  let thisPhase := circDist E.piq (st.prevPhase + st.phaseSpan * st.subSample / dsFactor) 0 E.piq
  let thisMag := st.prevMag + st.magSpan * st.subSample / dsFactor
  let st :=
    match mode with
    | .MAG => { st with out1 := st.out1 ++ [thisMag] }
    | .PH_AND_MAG => { st with out1 := st.out1 ++ [thisPhase * (180 / E.piq)],
                               out2 := st.out2 ++ [thisMag] }
    | .PH => { st with out1 := st.out1 ++ [thisPhase * (180 / E.piq)] }
    | .IM => { st with out1 := st.out1 ++ [thisMag * E.sinF thisPhase] }
  { st with subSample := (st.subSample + 1) % dsFactor }

/-- Initial interpolation state (lines 1398-1418). -/
def interpInit (E : ExtMath) (st0 : ChanState) (htOutput : List (ℚ × ℚ))
    (off dsFactor : ℕ) : InterpSt :=
  { out1 := []
    out2 := []
    kOut := 0
    prevCS := st0.lastComputedSample
    nextCS := htOutput.getD 0 (0, 0)
    prevPhase := phaseOf E st0.lastComputedSample
    nextPhase := phaseOf E (htOutput.getD 0 (0, 0))
    phaseSpan := circDist E.piq (phaseOf E (htOutput.getD 0 (0, 0)))
      (phaseOf E st0.lastComputedSample) E.piq
    prevMag := magOf E st0.lastComputedSample
    nextMag := magOf E (htOutput.getD 0 (0, 0))
    magSpan := magOf E (htOutput.getD 0 (0, 0)) - magOf E st0.lastComputedSample
    subSample := off % dsFactor }

/-- Number of samples enqueued into the history buffer:
`nSamples - jmax(nSamples - historyLength, 0)` (lines 1295-1296). -/
def nSamplesToEnqueueOf (historyLength n : ℕ) : ℕ := n - (n - historyLength)

/-- `bufferFreeSpace` after the enqueue (line 1316). -/
def freeSpaceAfter (P : ChanParams) (st : ChanState) (n : ℕ) : ℕ :=
  st.freeSpace - nSamplesToEnqueueOf P.historyLength n

/-- History shift-and-append (lines 1299-1313). -/
def enqueueHistory (historyLength : ℕ) (hist inSamps : List ℚ) : List ℚ :=
  hist.drop (nSamplesToEnqueueOf historyLength inSamps.length) ++
    inSamps.drop (inSamps.length - historyLength)

/-- Body of the computed branch of `process` for one channel (lines
1339-1488), from AR prediction to the unwrap/smooth post-processing.  The
publication of the history snapshot to the shared buffer (lines 1320-1332) is
a write to a separately modelled `AtomicSynchronizer`-guarded payload and has
no effect on the per-channel state here.  Produces ((main output region,
second output region), new channel state); the second region is empty except
in `PH_AND_MAG` mode. -/
def processChanComputed (E : ExtMath) (P : ChanParams) (st : ChanState)
    (inSamps : List ℚ) (ps : List ℚ) : (List ℚ × List ℚ) × ChanState :=
  let nSamples := inSamps.length
  let history1 := enqueueHistory P.historyLength st.history inSamps
  let pred := arPredict history1 st.dsOffset ps P.dsFactor P.arOrder P.htDelay
  let htInds := htIndsOf P.dsFactor st.dsOffset nSamples
  let step1 := htLoop1 P.htCoefs P.htScaleFactor P.htDelay inSamps htInds st.htState
  let step2 := htLoop2 P.htCoefs P.htScaleFactor P.htDelay inSamps htInds pred
    step1.1 step1.2
  let fin := (List.range nSamples).foldl
    (interpStep E P.outputMode P.dsFactor step2.2)
    (interpInit E st step2.2 st.dsOffset P.dsFactor)
  let doPhase := P.outputMode = OutputMode.PH ∨ P.outputMode = OutputMode.PH_AND_MAG
  let out1 :=
    if doPhase then
      smoothBuffer P.glitchLimit (unwrapBuffer P.glitchLimit fin.out1 st.lastPhase) st.lastPhase
    else fin.out1
  ((out1, fin.out2),
   { freeSpace := freeSpaceAfter P st nSamples
     history := history1
     htState := step1.1
     lastComputedSample := fin.prevCS
     lastPhase := if doPhase then out1.getD (nSamples - 1) 0 else st.lastPhase
     dsOffset := (st.dsOffset + nSamples - 1) % P.dsFactor + 1 })

/-- Per-channel body of `process` (lines 1281-1495).  `inSamps` is the
channel's buffer after the bandpass filter (an external DSP component);
`arParams` is the outcome of `pullUpdate` on the AR-parameter synchronizer
(`none` iff the read index is -1).  When the channel is skipped
(`nSamples = 0`) or not ready, the output region is as the source leaves it:
untouched (empty region) resp. cleared to zeros. -/
def processChan (E : ExtMath) (P : ChanParams) (st : ChanState)
    (inSamps : List ℚ) (arParams : Option (List ℚ)) :
    (List ℚ × List ℚ) × ChanState :=
  if inSamps.length = 0 then (([], []), st)
  else if freeSpaceAfter P st inSamps.length = 0 ∧ arParams ≠ none then
    processChanComputed E P st inSamps (arParams.getD [])
  else
    ((List.replicate inSamps.length 0, []),
     { st with history := enqueueHistory P.historyLength st.history inSamps
               freeSpace := freeSpaceAfter P st inSamps.length })

lemma mswap14 (a b c d e : ℤ) :
    a ::ₘ b ::ₘ c ::ₘ d ::ₘ ({e} : Multiset ℤ) = d ::ₘ b ::ₘ c ::ₘ a ::ₘ {e} := by
  rw [Multiset.cons_swap a b, Multiset.cons_swap a c, Multiset.cons_swap a d,
      Multiset.cons_swap c d, Multiset.cons_swap b d]

lemma mswap24 (a b c d e : ℤ) :
    a ::ₘ b ::ₘ c ::ₘ d ::ₘ ({e} : Multiset ℤ) = a ::ₘ d ::ₘ c ::ₘ b ::ₘ {e} := by
  rw [Multiset.cons_swap b c, Multiset.cons_swap b d, Multiset.cons_swap c d]

lemma mswap34 (a b c d e : ℤ) :
    a ::ₘ b ::ₘ c ::ₘ d ::ₘ ({e} : Multiset ℤ) = a ::ₘ b ::ₘ d ::ₘ c ::ₘ {e} := by
  rw [Multiset.cons_swap c d]

lemma mswap15 (a b c d e : ℤ) :
    a ::ₘ b ::ₘ c ::ₘ d ::ₘ ({e} : Multiset ℤ) = e ::ₘ b ::ₘ c ::ₘ d ::ₘ {a} := by
  show a ::ₘ b ::ₘ c ::ₘ d ::ₘ e ::ₘ 0 = e ::ₘ b ::ₘ c ::ₘ d ::ₘ a ::ₘ 0
  rw [Multiset.cons_swap a b, Multiset.cons_swap a c, Multiset.cons_swap a d,
      Multiset.cons_swap a e, Multiset.cons_swap d e, Multiset.cons_swap c e,
      Multiset.cons_swap b e]

lemma mcyc125 (a b c d e : ℤ) :
    a ::ₘ b ::ₘ c ::ₘ d ::ₘ ({e} : Multiset ℤ) = b ::ₘ e ::ₘ c ::ₘ d ::ₘ {a} := by
  show a ::ₘ b ::ₘ c ::ₘ d ::ₘ e ::ₘ 0 = b ::ₘ e ::ₘ c ::ₘ d ::ₘ a ::ₘ 0
  rw [Multiset.cons_swap a b, Multiset.cons_swap a c, Multiset.cons_swap a d,
      Multiset.cons_swap a e, Multiset.cons_swap d e, Multiset.cons_swap c e]

lemma updateWriterIndex_inv (s : AtomicSynchronizer)
    (hc : s.cells = ((0 : ℤ) ::ₘ 1 ::ₘ 2 ::ₘ -1 ::ₘ {-1})) :
    (s.updateWriterIndex).cells = ((0 : ℤ) ::ₘ 1 ::ₘ 2 ::ₘ -1 ::ₘ {-1}) ∧
      (s.updateWriterIndex).writerIndex ≠ -1 := by
  simp only [AtomicSynchronizer.cells] at hc
  by_cases hw : s.writerIndex = -1
  · by_cases h1 : s.readyToWriteIndex = -1
    · have h2 : s.readyToWriteIndex2 ≠ -1 := by
        intro heq
        have hR : Multiset.count (-1 : ℤ) ((0 : ℤ) ::ₘ 1 ::ₘ 2 ::ₘ -1 ::ₘ {-1}) = 2 := by decide
        have hcount := congrArg (Multiset.count (-1 : ℤ)) hc
        rw [hR] at hcount
        simp only [hw, h1, heq, Multiset.count_cons, Multiset.count_singleton] at hcount
        split_ifs at hcount <;> omega
      refine ⟨?_, ?_⟩
      · simp only [AtomicSynchronizer.updateWriterIndex, hw, h1, if_true, if_pos]
        simp only [AtomicSynchronizer.cells]
        rw [mswap34]
        rw [h1, hw] at hc
        exact hc
      · simp only [AtomicSynchronizer.updateWriterIndex, hw, h1, if_true, if_pos]
        exact h2
    · refine ⟨?_, ?_⟩
      · simp only [AtomicSynchronizer.updateWriterIndex, hw, h1, if_true, if_pos, if_neg,
          not_false_iff]
        simp only [AtomicSynchronizer.cells]
        rw [mswap24]
        rw [hw] at hc
        exact hc
      · simp only [AtomicSynchronizer.updateWriterIndex, hw, h1, if_true, if_pos, if_neg,
          not_false_iff]
        exact h1
  · simp only [AtomicSynchronizer.updateWriterIndex, hw, if_neg, not_false_iff, if_false]
    exact ⟨hc, hw⟩

lemma pushWrite_inv (s : AtomicSynchronizer) (h : SyncInv s) : SyncInv s.pushWrite := by
  obtain ⟨hc, hw⟩ := h
  show SyncInv ((if s.writerIndex = -1 then s
    else { s with readyToReadIndex := s.writerIndex,
                  writerIndex := s.readyToReadIndex }).updateWriterIndex)
  rw [if_neg hw]
  have h1 : (AtomicSynchronizer.mk s.writerIndex s.readyToWriteIndex s.readyToWriteIndex2
      s.readyToReadIndex s.readerIndex s.nWriters s.nReaders).cells
      = ((0 : ℤ) ::ₘ 1 ::ₘ 2 ::ₘ -1 ::ₘ {-1}) := by
    simp only [AtomicSynchronizer.cells] at hc ⊢
    rw [mswap14]
    exact hc
  exact updateWriterIndex_inv _ h1

lemma updateReaderIndex_inv (s : AtomicSynchronizer) (h : SyncInv s) :
    SyncInv s.updateReaderIndex := by
  obtain ⟨hc, hw⟩ := h
  unfold AtomicSynchronizer.updateReaderIndex
  by_cases h0 : s.readyToReadIndex ≠ -1
  · rw [if_pos h0]
    by_cases h1 : s.readerIndex ≠ -1
    · rw [if_pos h1]
      by_cases h2 : s.readyToWriteIndex = -1
      · rw [if_pos h2]
        refine ⟨?_, hw⟩
        simp only [AtomicSynchronizer.cells] at hc ⊢
        rw [← mcyc125]
        rw [h2] at hc
        exact hc
      · exfalso
        have hR : Multiset.count (-1 : ℤ) ((0 : ℤ) ::ₘ 1 ::ₘ 2 ::ₘ -1 ::ₘ {-1}) = 2 := by decide
        have hcount := congrArg (Multiset.count (-1 : ℤ)) hc
        rw [hR] at hcount
        simp only [AtomicSynchronizer.cells, Multiset.count_cons, Multiset.count_singleton]
          at hcount
        split_ifs at hcount <;> omega
    · rw [if_neg h1]
      push_neg at h1
      refine ⟨?_, hw⟩
      simp only [AtomicSynchronizer.cells] at hc ⊢
      rw [mswap15]
      rw [h1] at hc
      exact hc
  · rw [if_neg h0]
    exact ⟨hc, hw⟩

lemma apply_inv (op : SyncOp) (s : AtomicSynchronizer) (h : SyncInv s) :
    SyncInv (op.apply s) := by
  cases op with
  | checkoutWriter =>
      show SyncInv (if s.nWriters = 0 then { s with nWriters := 1 } else s)
      split <;> exact h
  | updateWriterIndex => exact updateWriterIndex_inv s h.1
  | pushWrite => exact pushWrite_inv s h
  | returnWriter => exact h
  | checkoutReader =>
      show SyncInv (if s.nReaders = 0 then { s with nReaders := 1 } else s)
      split <;> exact h
  | updateReaderIndex => exact updateReaderIndex_inv s h
  | returnReader => exact h

lemma runOps_inv (ops : List SyncOp) : ∀ s : AtomicSynchronizer, SyncInv s → SyncInv (runOps ops s) := by
  induction ops with
  | nil => intro s h; exact h
  | cons op rest ih => intro s h; exact ih _ (apply_inv op s h)

lemma resetState_inv : SyncInv AtomicSynchronizer.resetState :=
  ⟨by decide, by decide⟩

lemma reachable_inv (s : AtomicSynchronizer) (h : SyncReachable s) : SyncInv s := by
  obtain ⟨ops, rfl⟩ := h
  exact runOps_inv ops _ resetState_inv

lemma SyncInv.reader_ne_writer {s : AtomicSynchronizer} (h : SyncInv s) :
    s.readerIndex ≠ s.writerIndex := by
  obtain ⟨hc, hw⟩ := h
  intro heq
  by_cases hr : s.readerIndex = -1
  · exact hw (by rw [← heq]; exact hr)
  · have hcount := congrArg (Multiset.count s.readerIndex) hc
    simp [AtomicSynchronizer.cells, Multiset.count_cons, Multiset.count_singleton] at hcount
    split_ifs at hcount <;> omega

lemma updateWriterIndex_readyToRead (s : AtomicSynchronizer) :
    (s.updateWriterIndex).readyToReadIndex = s.readyToReadIndex := by
  unfold AtomicSynchronizer.updateWriterIndex
  split_ifs <;> rfl

lemma updateWriterIndex_reader (s : AtomicSynchronizer) :
    (s.updateWriterIndex).readerIndex = s.readerIndex := by
  unfold AtomicSynchronizer.updateWriterIndex
  split_ifs <;> rfl

lemma pushWrite_readyToRead (s : AtomicSynchronizer) (hw : s.writerIndex ≠ -1) :
    (s.pushWrite).readyToReadIndex = s.writerIndex := by
  show ((if s.writerIndex = -1 then s
    else { s with readyToReadIndex := s.writerIndex,
                  writerIndex := s.readyToReadIndex }).updateWriterIndex).readyToReadIndex = _
  rw [updateWriterIndex_readyToRead, if_neg hw]

lemma updateReaderIndex_self (s : AtomicSynchronizer) (h : s.readyToReadIndex = -1) :
    s.updateReaderIndex = s := by
  unfold AtomicSynchronizer.updateReaderIndex
  rw [if_neg]
  simp [h]

lemma updateReaderIndex_readyToRead (s : AtomicSynchronizer) :
    (s.updateReaderIndex).readyToReadIndex = -1 := by
  unfold AtomicSynchronizer.updateReaderIndex
  by_cases h : s.readyToReadIndex ≠ -1
  · rw [if_pos h]
    split_ifs <;> rfl
  · rw [if_neg h]
    push_neg at h
    exact h

lemma updateReaderIndex_reads (s : AtomicSynchronizer) (h : s.readyToReadIndex ≠ -1) :
    (s.updateReaderIndex).readerIndex = s.readyToReadIndex := by
  unfold AtomicSynchronizer.updateReaderIndex
  rw [if_pos h]
  split_ifs <;> rfl

lemma apply_noPush (op : SyncOp) (hop : op ≠ SyncOp.pushWrite) (s : AtomicSynchronizer)
    (h : s.readyToReadIndex = -1) :
    (op.apply s).readyToReadIndex = -1 ∧ (op.apply s).readerIndex = s.readerIndex := by
  cases op with
  | pushWrite => exact absurd rfl hop
  | checkoutWriter =>
      show (if s.nWriters = 0 then { s with nWriters := 1 } else s).readyToReadIndex = -1 ∧
        (if s.nWriters = 0 then { s with nWriters := 1 } else s).readerIndex = s.readerIndex
      split <;> exact ⟨h, rfl⟩
  | updateWriterIndex =>
      exact ⟨by rw [show (SyncOp.updateWriterIndex.apply s) = s.updateWriterIndex from rfl,
        updateWriterIndex_readyToRead]; exact h, updateWriterIndex_reader s⟩
  | returnWriter => exact ⟨h, rfl⟩
  | checkoutReader =>
      show (if s.nReaders = 0 then { s with nReaders := 1 } else s).readyToReadIndex = -1 ∧
        (if s.nReaders = 0 then { s with nReaders := 1 } else s).readerIndex = s.readerIndex
      split <;> exact ⟨h, rfl⟩
  | updateReaderIndex =>
      show (s.updateReaderIndex).readyToReadIndex = -1 ∧
        (s.updateReaderIndex).readerIndex = s.readerIndex
      rw [updateReaderIndex_self s h]
      exact ⟨h, rfl⟩
  | returnReader => exact ⟨h, rfl⟩

lemma runOps_noPush (ops : List SyncOp) (hops : SyncOp.pushWrite ∉ ops) :
    ∀ s : AtomicSynchronizer, s.readyToReadIndex = -1 →
      (runOps ops s).readyToReadIndex = -1 ∧ (runOps ops s).readerIndex = s.readerIndex := by
  induction ops with
  | nil => exact fun s h => ⟨h, rfl⟩
  | cons op rest ih =>
      intro s h
      have hop : op ≠ SyncOp.pushWrite := fun he => hops (he ▸ List.mem_cons_self op rest)
      have hrest : SyncOp.pushWrite ∉ rest := fun hm => hops (List.mem_cons_of_mem _ hm)
      have h1 := apply_noPush op hop s h
      have h2 := ih hrest (op.apply s) h1.1
      exact ⟨h2.1, h2.2.trans h1.2⟩

lemma pushIter_inv (s : AtomicSynchronizer) (h : SyncInv s) (n : ℕ) :
    SyncInv (AtomicSynchronizer.pushWrite^[n] s) := by
  induction n with
  | zero => exact h
  | succ k ih =>
      rw [Function.iterate_succ_apply']
      exact pushWrite_inv _ ih

lemma ratTruncNat_one_add (c : ℕ) : ratTruncNat (1 + (c : ℚ)) = c + 1 := by
  have h : (1 + (c : ℚ)) = (((c + 1 : ℕ) : ℤ) : ℚ) := by push_cast; ring
  rw [h, ratTruncNat]
  rw [Rat.num_intCast, Rat.den_intCast]
  simp [Int.tdiv]

lemma ratTruncNat_add_one (c : ℕ) : ratTruncNat ((c : ℚ) + 1) = c + 1 := by
  rw [add_comm]
  exact ratTruncNat_one_add c

lemma cwFold_alphaZero (xs : List (ℚ × ℚ)) : ∀ (s : ℚ × ℚ) (c : ℕ),
    xs.foldl ComplexWeightedAccum.addValue ⟨s, c, 0⟩
      = ⟨(xs.foldl ComplexAccum.addValue ⟨s, c⟩).sum,
         (xs.foldl ComplexAccum.addValue ⟨s, c⟩).count, 0⟩ := by
  induction xs with
  | nil => intro s c; rfl
  | cons y ys ih =>
      intro s c
      have h1 : ComplexWeightedAccum.addValue ⟨s, c, 0⟩ y
          = ⟨((s.1 + y.1, s.2 + y.2) : ℚ × ℚ), c + 1, 0⟩ := by
        simp [ComplexWeightedAccum.addValue, ratTruncNat_one_add, ratTruncNat_add_one,
          add_comm]
      show ys.foldl ComplexWeightedAccum.addValue (ComplexWeightedAccum.addValue ⟨s, c, 0⟩ y) = _
      rw [h1]
      exact ih (s.1 + y.1, s.2 + y.2) (c + 1)

lemma rwFold_alphaZero (ys : List ℚ) : ∀ (s : ℚ) (c : ℕ),
    ys.foldl RealWeightedAccum.addValue ⟨s, c, 0⟩ = ⟨s + ys.sum, c + ys.length, 0⟩ := by
  induction ys with
  | nil => intro s c; simp
  | cons y t ih =>
      intro s c
      have h1 : RealWeightedAccum.addValue ⟨s, c, 0⟩ y = ⟨y + s, c + 1, 0⟩ := by
        simp [RealWeightedAccum.addValue, ratTruncNat_one_add, ratTruncNat_add_one, add_comm]
      show t.foldl RealWeightedAccum.addValue (RealWeightedAccum.addValue ⟨s, c, 0⟩ y) = _
      rw [h1, ih (y + s) (c + 1)]
      simp only [RealWeightedAccum.mk.injEq, List.sum_cons, List.length_cons]
      exact ⟨by ring, by omega, trivial⟩

lemma unwrapLoop_noJump (lastPh : ℚ) (gl : ℕ) (wp : List ℚ)
    (h : ∀ i, i < wp.length →
      |wp.getD i 0 - (if i = 0 then lastPh else wp.getD (i - 1) 0)| ≤ 180) :
    ∀ fuel startInd, unwrapLoop lastPh gl wp.length fuel wp startInd = wp := by
  intro fuel
  induction fuel with
  | zero => intro startInd; rfl
  | succ k ih =>
      intro startInd
      by_cases h1 : startInd + 1 < wp.length
      · simp only [unwrapLoop]
        rw [if_pos h1, if_neg (not_lt.mpr (h startInd (by omega)))]
        exact ih (startInd + 1)
      · simp only [unwrapLoop]
        rw [if_neg h1]

lemma foldl_fst_eq {α σ τ : Type _} (l : List α) (F : σ × τ → α → σ × τ) (f : σ → α → σ)
    (hF : ∀ p a, (F p a).1 = f p.1 a) :
    ∀ p : σ × τ, (l.foldl F p).1 = l.foldl f p.1 := by
  induction l with
  | nil => intro p; rfl
  | cons a rest ih =>
      intro p
      rw [List.foldl_cons, List.foldl_cons, ih (F p a), hF]

lemma map_range_getD {α : Type _} (xs : List α) (d : α) :
    (List.range xs.length).map (fun k => xs.getD k d) = xs := by
  induction xs with
  | nil => rfl
  | cons a t ih =>
      rw [List.length_cons, List.range_succ_eq_map, List.map_cons, List.map_map]
      simp only [Function.comp_def, List.getD_cons_zero, List.getD_cons_succ]
      rw [ih]

lemma foldl_range_getD {σ : Type _} (xs : List ℕ) (f : σ → ℕ → σ) (s : σ) :
    (List.range xs.length).foldl (fun t k => f t (xs.getD k 0)) s = xs.foldl f s := by
  conv_rhs => rw [← map_range_getD xs 0]
  rw [List.foldl_map]

lemma htLoop1_fst (coefs : List ℚ) (scale : ℚ) (delay : ℕ) (inSamps : List ℚ)
    (htInds : List ℕ) (st0 : List ℚ) :
    (htLoop1 coefs scale delay inSamps htInds st0).1
      = htFoldState coefs st0 (htInds.map (fun i => inSamps.getD i 0)) := by
  unfold htLoop1
  rw [foldl_fst_eq (List.range htInds.length) _
    (fun s kIn => (htFilterSamp coefs (inSamps.getD (htInds.getD kIn 0) 0) s).2)
    (fun p a => rfl) (st0, [])]
  rw [htFoldState, List.foldl_map]
  exact foldl_range_getD htInds
    (fun s i => (htFilterSamp coefs (inSamps.getD i 0) s).2) st0

/-- C1: starting from a reset `AtomicSynchronizer`, every interleaving of the
single-writer operations (`checkoutWriter`, `updateWriterIndex`, `pushWrite`,
`returnWriter`) and single-reader operations (`checkoutReader`,
`updateReaderIndex`, `returnReader`) keeps the five index cells a permutation
of `{0, 1, 2, -1, -1}`, and the slot held by the reader is never the slot held
by the writer. -/
theorem atomicSynchronizer_mutual_exclusion (ops : List SyncOp) :
    (runOps ops AtomicSynchronizer.resetState).cells
        = ((0 : ℤ) ::ₘ 1 ::ₘ 2 ::ₘ -1 ::ₘ {-1}) ∧
    (runOps ops AtomicSynchronizer.resetState).readerIndex
        ≠ (runOps ops AtomicSynchronizer.resetState).writerIndex := by
  have h := runOps_inv ops _ resetState_inv
  exact ⟨h.1, h.reader_ne_writer⟩

/-- C2: from any reachable state, after `N ≥ 1` `pushWrite` operations with no
intervening poll, one `updateReaderIndex` claims exactly the slot published by
the N-th (most recent) push; a poll with no publish since the previous poll
leaves the reader's index unchanged; and the reader's index is `-1` before any
`pushWrite` has ever occurred. -/
theorem tripleBuffer_freshness (s : AtomicSynchronizer) (hs : SyncReachable s)
    (N : ℕ) (hN : 1 ≤ N) :
    ((AtomicSynchronizer.pushWrite^[N] s).updateReaderIndex).readerIndex
        = (AtomicSynchronizer.pushWrite^[N - 1] s).writerIndex
  ∧ (∀ ops : List SyncOp, SyncOp.pushWrite ∉ ops →
      ((runOps ops s.updateReaderIndex).updateReaderIndex).readerIndex
        = (s.updateReaderIndex).readerIndex)
  ∧ (∀ ops : List SyncOp, SyncOp.pushWrite ∉ ops →
      (runOps ops AtomicSynchronizer.resetState).readerIndex = -1) := by
  have hinv := reachable_inv s hs
  refine ⟨?_, ?_, ?_⟩
  · have hprev := pushIter_inv s hinv (N - 1)
    have hstep : AtomicSynchronizer.pushWrite^[N] s
        = (AtomicSynchronizer.pushWrite^[N - 1] s).pushWrite := by
      conv_lhs => rw [show N = (N - 1) + 1 by omega]
      exact Function.iterate_succ_apply' _ _ _
    have hrtR := pushWrite_readyToRead _ hprev.2
    rw [hstep, updateReaderIndex_reads _ (by rw [hrtR]; exact hprev.2), hrtR]
  · intro ops hops
    have h1 := runOps_noPush ops hops s.updateReaderIndex (updateReaderIndex_readyToRead s)
    rw [updateReaderIndex_self _ h1.1, h1.2]
  · intro ops hops
    have h1 := runOps_noPush ops hops AtomicSynchronizer.resetState (by decide)
    rw [h1.2]
    rfl

/-- Witness for C2 at the reset state with `N = 2`. -/
theorem tripleBuffer_freshness_witness :
    ((AtomicSynchronizer.pushWrite^[2] AtomicSynchronizer.resetState).updateReaderIndex).readerIndex
      = (AtomicSynchronizer.pushWrite^[2 - 1] AtomicSynchronizer.resetState).writerIndex :=
  (tripleBuffer_freshness AtomicSynchronizer.resetState ⟨[], rfl⟩ 2 (by decide)).1

/-- C3 (status): `setParams` at a modeler previously configured with
`stridedLength = 2` rejects the valid request `(order 3, length 100,
stride 1)` — the claimed acceptance condition
`¬(order < 1 ∨ ⌈length / stride⌉ < order + 1)` holds, yet the call returns
`false`, because the source validates the stale member `stridedLength`
instead of the strided length of the new arguments. -/
theorem setParams_checks_stale_configuration :
    (ARModeler.setParams ⟨1, 2, 2, 1, [0, 0], [0, 0]⟩ 3 100 1).1 = false
  ∧ ¬((3 : ℤ) < 1 ∨ ARModeler.calcStridedLength 100 1 < 3 + 1)
  ∧ (ARModeler.setParams ⟨1, 2, 2, 1, [0, 0], [0, 0]⟩ 3 100 1).2
      = ⟨1, 2, 2, 1, [0, 0], [0, 0]⟩ := by
  refine ⟨rfl, by decide, rfl⟩

/-- C4: for any channel in a callback, if the history buffer is not yet full
(`bufferFreeSpace` still positive after the enqueue) or no AR parameter
snapshot has ever been published (AR read index -1, i.e. `arParams = none`),
the channel's entire output region is zeros. -/
theorem process_notReady_outputs_zeros (E : ExtMath) (P : ChanParams)
    (st : ChanState) (inSamps : List ℚ) (arParams : Option (List ℚ))
    (h : 0 < freeSpaceAfter P st inSamps.length ∨ arParams = none) :
    (processChan E P st inSamps arParams).1.1 = List.replicate inSamps.length 0 := by
  unfold processChan
  by_cases h0 : inSamps.length = 0
  · rw [if_pos h0, h0]
    rfl
  · rw [if_neg h0, if_neg]
    rintro ⟨hfs, hne⟩
    rcases h with h | h
    · omega
    · exact hne h

/-- Witness for C4: a half-filled channel with no AR snapshot outputs zeros. -/
theorem process_notReady_outputs_zeros_witness :
    (processChan ⟨0, fun _ _ => 0, fun _ _ => 0, fun _ => 0⟩
      ⟨4, 1, 1, 1, [1, 0, 1], 1, 2, OutputMode.PH⟩
      ⟨10, [0, 0, 0, 0], [0, 0, 0], (0, 0), 0, 1⟩
      [1, 2] none).1.1 = List.replicate ([1, 2] : List ℚ).length 0 :=
  process_notReady_outputs_zeros ⟨0, fun _ _ => 0, fun _ _ => 0, fun _ => 0⟩
    ⟨4, 1, 1, 1, [1, 0, 1], 1, 2, OutputMode.PH⟩
    ⟨10, [0, 0, 0, 0], [0, 0, 0], (0, 0), 0, 1⟩
    [1, 2] none (Or.inr rfl)

/-- C5: `fitModel` is a pure function of the input series and the configured
order, strided length and stride: the result does not depend on the `per` and
`pef` state left by earlier fits (they are reset to zero at the start of each
fit). -/
theorem fitModel_deterministic (m1 m2 : ARModeler) (x : List ℚ)
    (hOrd : m1.arOrder = m2.arOrder)
    (hSL : m1.stridedLength = m2.stridedLength)
    (hStr : m1.stride = m2.stride)
    (hLen : (x.length : ℤ) = m1.inputLength) :
    (m1.fitModel x).1 = (m2.fitModel x).1 := by
  simp only [ARModeler.fitModel, ARModeler.resetPredictionError]
  rw [hOrd, hSL, hStr]

/-- Witness for C5: two modelers with the same configuration but different
`per`/`pef` residue produce the same coefficients. -/
theorem fitModel_deterministic_witness :
    ((ARModeler.mk 1 2 2 1 [5, 7] [9, 11]).fitModel [1, 2]).1
      = ((ARModeler.mk 1 2 2 1 [0, 0] [3, 4]).fitModel [1, 2]).1 :=
  fitModel_deterministic (ARModeler.mk 1 2 2 1 [5, 7] [9, 11])
    (ARModeler.mk 1 2 2 1 [0, 0] [3, 4]) [1, 2] rfl rfl rfl rfl

/-- C6: with `alpha = 0` the exponentially weighted accumulators degenerate to
the linear ones: a `ComplexWeightedAccum` built with `alpha = 0` returns
exactly the `ComplexAccum` average for every input sequence, and a
`RealWeightedAccum` with `alpha = 0` computes the plain running mean of its
inputs. -/
theorem weighted_alphaZero_eq_linear :
    (∀ xs : List (ℚ × ℚ),
      (xs.foldl ComplexWeightedAccum.addValue (ComplexWeightedAccum.init 0)).getAverage
        = (xs.foldl ComplexAccum.addValue ComplexAccum.init).getAverage)
  ∧ (∀ ys : List ℚ,
      (ys.foldl RealWeightedAccum.addValue (RealWeightedAccum.init 0)).getAverage
        = if ys = [] then 0 else ys.sum / ys.length) := by
  constructor
  · intro xs
    rw [show ComplexWeightedAccum.init 0 = ⟨(0, 0), 0, 0⟩ from rfl,
        cwFold_alphaZero xs (0, 0) 0]
    rfl
  · intro ys
    rw [show RealWeightedAccum.init 0 = ⟨0, 0, 0⟩ from rfl, rwFold_alphaZero ys 0 0]
    rcases eq_or_ne ys [] with h | h
    · subst h; rfl
    · rw [if_neg h]
      have hlen : 0 < ys.length := List.length_pos.mpr h
      rw [RealWeightedAccum.getAverage]
      rw [if_pos (by simpa using hlen)]
      simp

/-- C7: `unwrapBuffer` is the identity on a buffer that is already unwrapped:
if every consecutive difference — including the first sample minus the carried
`lastPhase` — is at most 180 in absolute value, every element is left
unchanged. -/
theorem unwrapBuffer_idempotent (glitchLimit : ℕ) (wp : List ℚ) (lastPh : ℚ)
    (h : ∀ i, i < wp.length →
      |wp.getD i 0 - (if i = 0 then lastPh else wp.getD (i - 1) 0)| ≤ 180) :
    unwrapBuffer glitchLimit wp lastPh = wp :=
  unwrapLoop_noJump lastPh glitchLimit wp h wp.length 0

/-- Witness for C7 on a concrete already-unwrapped buffer. -/
theorem unwrapBuffer_idempotent_witness :
    unwrapBuffer 200 [10, 100, -50] 0 = [10, 100, -50] := by
  refine unwrapBuffer_idempotent 200 [10, 100, -50] 0 ?_
  intro i hi
  have hi3 : i < 3 := by simpa using hi
  interval_cases i <;> norm_num [List.getD_cons_zero, List.getD_cons_succ]

/-- C8: after a `process` callback the channel's streaming filter state
`htState` is exactly the result of feeding the callback's real (decimated)
input samples through the transformer — the `HT_DELAY + 1` AR-predicted
samples are filtered only through the copy `htTempState` and never touch it;
in particular the result is the same for every AR parameter vector. -/
theorem process_htState_frame (E : ExtMath) (P : ChanParams) (st : ChanState)
    (inSamps : List ℚ) (arParams : Option (List ℚ)) :
    ((processChan E P st inSamps arParams).2).htState =
      (if inSamps.length ≠ 0 ∧ freeSpaceAfter P st inSamps.length = 0 ∧ arParams ≠ none then
        htFoldState P.htCoefs st.htState
          ((htIndsOf P.dsFactor st.dsOffset inSamps.length).map (fun i => inSamps.getD i 0))
      else st.htState) := by
  unfold processChan
  by_cases h0 : inSamps.length = 0
  · rw [if_pos h0, if_neg (by simp [h0])]
  · by_cases h1 : freeSpaceAfter P st inSamps.length = 0 ∧ arParams ≠ none
    · rw [if_neg h0, if_pos h1, if_pos ⟨h0, h1⟩]
      exact htLoop1_fst P.htCoefs P.htScaleFactor P.htDelay inSamps
        (htIndsOf P.dsFactor st.dsOffset inSamps.length) st.htState
    · rw [if_neg h0, if_neg h1, if_neg (by tauto)]

/-- C9: from any reachable state with no writer checked out, constructing a
`ScopedWriteIndex` succeeds, and destroying it pushes the held write slot to
`readyToReadIndex` and releases the writer role, so that the next
`updateReaderIndex` claims exactly that slot, even though `pushUpdate` was
never called. -/
theorem scopedWriteIndex_release_publishes (s : AtomicSynchronizer)
    (hs : SyncReachable s) (hw : s.nWriters = 0) :
    (scopedWriteAcquire s).1 = true
  ∧ (scopedWriteRelease (scopedWriteAcquire s).1 (scopedWriteAcquire s).2).nWriters = 0
  ∧ (scopedWriteRelease (scopedWriteAcquire s).1 (scopedWriteAcquire s).2).readyToReadIndex
      = ((scopedWriteAcquire s).2).writerIndex
  ∧ ((scopedWriteRelease (scopedWriteAcquire s).1 (scopedWriteAcquire s).2).updateReaderIndex).readerIndex
      = ((scopedWriteAcquire s).2).writerIndex := by
  have hinv := reachable_inv s hs
  have hacq : scopedWriteAcquire s = (true, ({ s with nWriters := 1 }).updateWriterIndex) := by
    unfold scopedWriteAcquire
    rw [if_pos hw]
  have hinv1 : SyncInv (({ s with nWriters := 1 }).updateWriterIndex) :=
    updateWriterIndex_inv _ hinv.1
  have ht : (scopedWriteRelease true (({ s with nWriters := 1 }).updateWriterIndex)).readyToReadIndex
      = (({ s with nWriters := 1 }).updateWriterIndex).writerIndex := by
    show (((({ s with nWriters := 1 }).updateWriterIndex)).pushWrite).readyToReadIndex = _
    exact pushWrite_readyToRead _ hinv1.2
  refine ⟨by rw [hacq], ?_, ?_, ?_⟩
  · rw [hacq]
    rfl
  · rw [hacq]
    exact ht
  · rw [hacq]
    show ((scopedWriteRelease true (({ s with nWriters := 1 }).updateWriterIndex)).updateReaderIndex).readerIndex = _
    rw [updateReaderIndex_reads _ (by rw [ht]; exact hinv1.2), ht]

/-- Witness for C9 at the reset state. -/
theorem scopedWriteIndex_release_publishes_witness :
    (scopedWriteAcquire AtomicSynchronizer.resetState).1 = true
  ∧ (scopedWriteRelease (scopedWriteAcquire AtomicSynchronizer.resetState).1
      (scopedWriteAcquire AtomicSynchronizer.resetState).2).nWriters = 0
  ∧ (scopedWriteRelease (scopedWriteAcquire AtomicSynchronizer.resetState).1
      (scopedWriteAcquire AtomicSynchronizer.resetState).2).readyToReadIndex
      = ((scopedWriteAcquire AtomicSynchronizer.resetState).2).writerIndex
  ∧ ((scopedWriteRelease (scopedWriteAcquire AtomicSynchronizer.resetState).1
      (scopedWriteAcquire AtomicSynchronizer.resetState).2).updateReaderIndex).readerIndex
      = ((scopedWriteAcquire AtomicSynchronizer.resetState).2).writerIndex :=
  scopedWriteIndex_release_publishes AtomicSynchronizer.resetState ⟨[], rfl⟩ rfl

/-- C10: every accumulator returns exactly zero from `getAverage` while no
value has been added (`count = 0`): the division by `count` is guarded. -/
theorem accum_getAverage_zero_guard :
    ComplexAccum.init.getAverage = (0, 0)
  ∧ (∀ a : ℚ, (ComplexWeightedAccum.init a).getAverage = (0, 0))
  ∧ (∀ a : ℚ, (RealWeightedAccum.init a).getAverage = 0)
  ∧ (∀ s : ComplexAccum, s.count = 0 → s.getAverage = (0, 0))
  ∧ (∀ s : ComplexWeightedAccum, s.count = 0 → s.getAverage = (0, 0))
  ∧ (∀ s : RealWeightedAccum, s.count = 0 → s.getAverage = 0) := by
  refine ⟨rfl, fun a => rfl, fun a => rfl, ?_, ?_, ?_⟩
  · intro s h
    rw [ComplexAccum.getAverage, if_neg (by omega)]
  · intro s h
    rw [ComplexWeightedAccum.getAverage, if_neg (by omega)]
  · intro s h
    rw [RealWeightedAccum.getAverage, if_neg (by omega)]

/-- Witness for C10: a `ComplexAccum` with junk sum but zero count averages to
zero. -/
theorem accum_getAverage_zero_guard_witness :
    (ComplexAccum.mk (5, 7) 0).getAverage = (0, 0) :=
  accum_getAverage_zero_guard.2.2.2.1 (ComplexAccum.mk (5, 7) 0) rfl
